import Mathlib

/-!
Verification of the retrieval-augmented-generation chatbot backend
(`rag-chatbot-backend`): a shallow embedding of the chunking algorithm
(`app/services/pdf_processor.py`), the web-search gate
(`app/services/web_search.py`), and the RAG pipeline orchestration
(`app/core/rag_pipeline.py`, `app/core/llm_client.py`), together with
theorems settling the specification's claims about them.

Text is modelled as `List Char`; Python floats are modelled as rationals
(all arithmetic in the relevant code paths is linear, so this is exact);
Python's `round(x, 2)` (round-half-to-even) is modelled by `pyRound2`.
-/

namespace RagChatbot

/-! ## Python primitives -/

/-- One endpoint of a Python slice `l[a:b]`: negative indices count from the
end and everything is clamped into `[0, n]`. -/
def pyIndex (n : Nat) (i : Int) : Nat :=
  if i < 0 then (max ((n : Int) + i) 0).toNat else min i.toNat n

/-- Python slice `l[a:b]` (step 1), including negative-index semantics. -/
def pySlice (l : List Char) (a b : Int) : List Char :=
  (l.take (pyIndex l.length b)).drop (pyIndex l.length a)

/-- Python `str.rfind(c)`: index of the last occurrence of `c`, `-1` if
absent. -/
def rfind : List Char → Char → Int
  | [], _ => -1
  | c :: cs, target =>
    let r := rfind cs target
    if 0 ≤ r then r + 1
    else if c = target then 0 else -1

/-- Python `str.strip()`: drop leading and trailing whitespace. -/
def pyStrip (l : List Char) : List Char :=
  ((l.dropWhile Char.isWhitespace).reverse.dropWhile Char.isWhitespace).reverse

/-- Round to the nearest integer, ties to the even neighbour (Python's
`round` on exact values). -/
def roundHalfEven (x : ℚ) : ℤ :=
  if 1/2 < x - ⌊x⌋ then ⌊x⌋ + 1
  else if x - ⌊x⌋ < 1/2 then ⌊x⌋
  else if Even ⌊x⌋ then ⌊x⌋ else ⌊x⌋ + 1

/-- Python `round(q, 2)`. -/
def pyRound2 (q : ℚ) : ℚ := (roundHalfEven (100 * q) : ℚ) / 100

/-! ## Chunker (`PDFProcessor.chunk_text`, pdf_processor.py lines 76–125) -/

/-- The two configuration values the chunker reads from `settings`
(`chunk_size`, `chunk_overlap`; defaults 1000 and 200 in `config.py`). -/
structure ChunkCfg where
  chunkSize : Nat
  chunkOverlap : Nat
deriving DecidableEq

/-- Model of `DocumentChunk` together with the per-chunk metadata fields that
`chunk_text` writes (`chunk_number`, `start_char`, `end_char`). -/
structure DocumentChunk where
  content : List Char
  chunkNumber : Nat
  startChar : Int
  endChar : Int
  chunkId : String
deriving DecidableEq

/-- One iteration of the `while start < text_length` loop of `chunk_text`:
returns the emitted chunk and the next value of `start`.

Mirrors the body: `end = start + chunk_size`; `chunk_text = text[start:end]`;
if `end < text_length`, compute `break_point` as the max of
`chunk_text.rfind('.')` and `chunk_text.rfind('\n')` and, when
`break_point > chunk_size * 0.5` (an integer against a dyadic rational, so
exactly `2 * break_point > chunk_size`), re-cut at `chunk_text[:break_point+1]`
and set `end = start + break_point + 1`; finally strip the content and step
`start = end - chunk_overlap`. -/
def chunkStep (cfg : ChunkCfg) (filename : String) (text : List Char)
    (start : Int) (num : Nat) : DocumentChunk × Int :=
  let rawEnd : Int := start + cfg.chunkSize
  let window := pySlice text start rawEnd
  let cut :=
    if rawEnd < (text.length : Int) then
      let lastPeriod := rfind window '.'
      let lastNewline := rfind window '\n'
      let breakPoint := max lastPeriod lastNewline
      if 2 * breakPoint > (cfg.chunkSize : Int) then
        (pySlice window 0 (breakPoint + 1), start + breakPoint + 1)
      else (window, rawEnd)
    else (window, rawEnd)
  (⟨pyStrip cut.1, num, start, cut.2, filename ++ "_" ++ toString num⟩,
    cut.2 - cfg.chunkOverlap)

/-- The `while start < text_length` loop of `chunk_text`, with explicit fuel:
the Python loop has no a-priori bound, and for some configurations it does
not terminate, so the embedding returns `none` when `fuel` runs out while the
guard still holds. -/
def chunkLoop (cfg : ChunkCfg) (filename : String) (text : List Char) :
    Nat → Int → Nat → Option (List DocumentChunk)
  | 0, start, _ =>
    if start < (text.length : Int) then none else some []
  | fuel + 1, start, num =>
    if start < (text.length : Int) then
      let p := chunkStep cfg filename text start num
      (chunkLoop cfg filename text fuel p.2 (num + 1)).map (p.1 :: ·)
    else some []

/-- Embedding of `PDFProcessor.chunk_text(text, metadata)`: run the loop from
`start = 0`, `chunk_num = 0`. `filename` stands for
`metadata.get('filename', 'unknown')`, the only metadata field the
algorithm itself consumes. -/
def chunkText (cfg : ChunkCfg) (filename : String) (text : List Char)
    (fuel : Nat) : Option (List DocumentChunk) :=
  chunkLoop cfg filename text fuel 0 0

/-! ## Retrieval results, search results, sources -/

/-- One entry of the list returned by `VectorStore.search`: a dict with
`content`, `metadata` (whose `filename` / `page_number` / `chunk_number`
keys may be absent) and `distance` (read back through `.get` with a default
at every use site, hence `Option`). Python's `'N/A'` placeholder for a
missing page is `none` here. -/
structure KBResult where
  content : String
  filename : Option String
  pageNumber : Option Nat
  chunkNumber : Option Nat
  distance : Option ℚ
deriving DecidableEq

/-- Model of `SearchResult` from web_search.py: its `__init__` always sets all four
fields, and `to_dict` re-exposes exactly them. -/
structure SearchResult where
  title : String
  url : String
  content : String
  score : ℚ
deriving DecidableEq

/-- Outcome of the external Tavily call inside `WebSearchService.search`:
the provider either returns a result list or raises. -/
inductive SearchOutcome where
  | success (results : List SearchResult)
  | failure (message : String)
deriving DecidableEq

/-- Embedding of `WebSearchService.search` (web_search.py lines 33–76): the `try/except`
turns any provider exception into an empty result list; it never raises. -/
def webSearchCall (outcome : SearchOutcome) : List SearchResult :=
  match outcome with
  | .success results => results
  | .failure _ => []

/-- Embedding of `WebSearchService.should_use_search` (web_search.py lines 78–103):
empty results force a search; otherwise compare the unclamped
`1 - distance/2` of the first result (`.get('distance', 1.0)`) against the
threshold. -/
def shouldUseSearch (knowledgeBaseResults : List KBResult)
    (confidenceThreshold : ℚ) : Bool :=
  match knowledgeBaseResults with
  | [] => true
  | top :: _ =>
    let topResultDistance := top.distance.getD 1
    let confidence := 1 - topResultDistance / 2
    decide (confidence < confidenceThreshold)

/-- Modelled from the spec (section 4.2 "Confidence Scorer", which has no
single dedicated function in the source): `clamp(1 - distance/2, 0, 1)`.
Kept separate from the code-side definitions so the gate and confidence
claims can be compared against it. -/
def specConfidenceScore (distance : ℚ) : ℚ :=
  max 0 (min 1 (1 - distance / 2))

/-- Embedding of `RAGPipeline._calculate_confidence` (rag_pipeline.py lines 126–145):
clamp `1 - distance/2` of the top result (`.get('distance', 2.0)`) into
`[0, 1]` and round to 2 decimal places; `0.0` on empty results. -/
def calculateConfidence (kbResults : List KBResult) : ℚ :=
  match kbResults with
  | [] => 0
  | top :: _ =>
    let topDistance := top.distance.getD 2
    let confidence := max 0 (min 1 (1 - topDistance / 2))
    pyRound2 confidence

/-- The tagged source dicts `_format_sources` builds. -/
inductive Source where
  | knowledgeBase (filename : String) (pageNumber : Option Nat)
      (chunkNumber : Option Nat) (relevanceScore : ℚ)
  | webSearch (title : String) (url : String) (relevanceScore : ℚ)
deriving DecidableEq

/-- Whether a source entry carries the `web_search` tag. -/
def Source.isWeb : Source → Bool
  | .webSearch _ _ _ => true
  | _ => false

/-- The `knowledge_base` source dict built for one retrieval result
(rag_pipeline.py lines 165–173). -/
def kbSource (result : KBResult) : Source :=
  Source.knowledgeBase (result.filename.getD "Unknown") result.pageNumber
    result.chunkNumber (pyRound2 (1 - result.distance.getD 1 / 2))

/-- The `web_search` source dict built for one search result
(rag_pipeline.py lines 176–182); the provider score is passed through
unchanged. -/
def webSource (s : SearchResult) : Source :=
  Source.webSearch s.title s.url s.score

/-- Embedding of `RAGPipeline._format_sources` (rag_pipeline.py lines 147–184): the
first three knowledge-base results, then the first three web sources. -/
def formatSources (kbResults : List KBResult)
    (searchSources : List SearchResult) : List Source :=
  (kbResults.take 3).map kbSource ++ (searchSources.take 3).map webSource

/-! ## Prompt construction (`LLMClient.create_prompt`) and the pipeline -/

/-- A chat message handed to the generation collaborator. -/
structure Message where
  role : String
  content : String
deriving DecidableEq

/-- Python renders a missing `page_number` as the string `'N/A'`. -/
def pageString : Option Nat → String
  | some n => toString n
  | none => "N/A"

/-- The fixed system prompt of `create_prompt`. -/
def systemMessage : String :=
  "You are a helpful AI assistant for a product support chatbot. Your role is to answer user questions accurately using the provided context from product documentation and web search results.\n\nGuidelines:\n- Always prioritize information from the Internal Knowledge Base (product documentation)\n- Use web search results to supplement or provide additional context when needed\n- If the answer is not in the provided context, clearly state that you don't have that information\n- Be concise but comprehensive in your answers\n- If referencing specific sources, mention them\n- Maintain a professional and friendly tone"

/-- Embedding of `LLMClient.create_prompt` (llm_client.py lines 17–76). A `none` (or
empty, per Python truthiness) search context contributes nothing. -/
def createPrompt (query : String) (knowledgeBaseContext : List KBResult)
    (searchResultsContext : Option String) : List Message :=
  let kbContextParts : List String :=
    if knowledgeBaseContext.isEmpty then []
    else
      "Internal Knowledge Base:\n" ::
        (knowledgeBaseContext.enum.map (fun p =>
          ["[Source " ++ toString (p.1 + 1) ++ ": " ++ p.2.filename.getD "Unknown"
              ++ ", Page " ++ pageString p.2.pageNumber ++ "]",
            p.2.content, ""])).flatten
  let kbContext :=
    if kbContextParts.isEmpty then "No relevant internal documentation found."
    else String.intercalate "\n" kbContextParts
  let searchParts : List String :=
    match searchResultsContext with
    | some ctx => if ctx = "" then [] else [ctx, ""]
    | none => []
  let userContentParts :=
    [kbContext, ""] ++ searchParts ++
      ["User Question: " ++ query,
        "\nPlease provide a helpful answer based on the context above:"]
  [⟨"system", systemMessage⟩,
    ⟨"user", String.intercalate "\n" userContentParts⟩]

/-- Embedding of `WebSearchService.format_search_results_for_context`
(web_search.py lines 105–124). -/
def formatSearchResultsForContext (results : List SearchResult) : String :=
  if results.isEmpty then ""
  else
    String.intercalate "\n"
      ("Web Search Results:\n" ::
        (results.enum.map (fun p =>
          [toString (p.1 + 1) ++ ". " ++ p.2.title,
            "   Source: " ++ p.2.url,
            "   " ++ p.2.content ++ "\n"])).flatten)

/-- Model of `RAGResponse` from rag_pipeline.py. -/
structure RAGResponse where
  answer : String
  sources : List Source
  confidence : ℚ
  usedWebSearch : Bool
deriving DecidableEq

/-- Step 2 of `RAGPipeline.query` / `query_stream`: gate evaluation and the
conditional search call, producing `(used_search, search_context,
search_sources)` exactly as the mutable locals end up. -/
def searchStep (kbResults : List KBResult) (searchOutcome : SearchOutcome)
    (useSearch : Bool) (threshold : ℚ) :
    Bool × Option String × List SearchResult :=
  if useSearch && shouldUseSearch kbResults threshold then
    if (webSearchCall searchOutcome).isEmpty then (false, none, [])
    else (true,
      some (formatSearchResultsForContext (webSearchCall searchOutcome)),
      webSearchCall searchOutcome)
  else (false, none, [])

/-- Embedding of `RAGPipeline.query` (rag_pipeline.py lines 28–85), with the external
collaborators passed as values: `kbResults` is what
`vector_store.search(user_query, k)` returned, `searchOutcome` is the
behaviour of the Tavily provider on this request, and `gen` is the
generation collaborator applied to the prompt messages. -/
def ragQuery (gen : List Message → String) (kbResults : List KBResult)
    (searchOutcome : SearchOutcome) (userQuery : String) (useSearch : Bool)
    (searchConfidenceThreshold : ℚ) : RAGResponse :=
  let s := searchStep kbResults searchOutcome useSearch
    searchConfidenceThreshold
  let answer := gen (createPrompt userQuery kbResults s.2.1)
  let confidence := calculateConfidence kbResults
  let sources := formatSources kbResults s.2.2
  ⟨answer, sources, confidence, s.1⟩

/-- The prompt messages `RAGPipeline.query_stream` (rag_pipeline.py lines
87–124) hands to `generate_response_stream`, transcribed from its own body:
it recomputes the gate and the conditional search context, then calls
`create_prompt` with the same query and retrieval results. -/
def queryStreamPrompt (kbResults : List KBResult)
    (searchOutcome : SearchOutcome) (userQuery : String) (useSearch : Bool)
    (searchConfidenceThreshold : ℚ) : List Message :=
  let searchContext : Option String :=
    if useSearch && shouldUseSearch kbResults searchConfidenceThreshold then
      if (webSearchCall searchOutcome).isEmpty then none
      else some (formatSearchResultsForContext (webSearchCall searchOutcome))
    else none
  createPrompt userQuery kbResults searchContext

/-- The prompt messages the non-streaming path `RAGPipeline.query` hands to
`generate_response`: `create_prompt` applied to the query, the retrieval
results, and the search context computed in its step 2. -/
def queryPrompt (kbResults : List KBResult) (searchOutcome : SearchOutcome)
    (userQuery : String) (useSearch : Bool) (threshold : ℚ) : List Message :=
  createPrompt userQuery kbResults
    (searchStep kbResults searchOutcome useSearch threshold).2.1

/-- A retrieval result carrying only a distance; used to state claims about
the scoring functions as functions of the distance. -/
def kbWithDistance (d : ℚ) : KBResult := ⟨"", none, none, none, some d⟩

/-- The linking invariant of a chunk sequence: the first chunk starts at
`s`, and each later chunk starts exactly `chunkOverlap` characters before
the previous chunk's end (`start = end - overlap`, pdf_processor.py line
122). -/
def ChunkChain (cfg : ChunkCfg) : Int → List DocumentChunk → Prop
  | _, [] => True
  | s, c :: rest =>
    c.startChar = s ∧ ChunkChain cfg (c.endChar - cfg.chunkOverlap) rest

/-! ## Rounding lemmas -/

lemma roundHalfEven_ge_floor (x : ℚ) : ⌊x⌋ ≤ roundHalfEven x := by
  unfold roundHalfEven
  split_ifs <;> omega

lemma roundHalfEven_le_floor_add_one (x : ℚ) : roundHalfEven x ≤ ⌊x⌋ + 1 := by
  unfold roundHalfEven
  split_ifs <;> omega

lemma roundHalfEven_mono {x y : ℚ} (hxy : x ≤ y) :
    roundHalfEven x ≤ roundHalfEven y := by
  rcases lt_or_le ⌊x⌋ ⌊y⌋ with hf | hf
  · calc roundHalfEven x ≤ ⌊x⌋ + 1 := roundHalfEven_le_floor_add_one x
      _ ≤ ⌊y⌋ := by omega
      _ ≤ roundHalfEven y := roundHalfEven_ge_floor y
  · have hfe : ⌊x⌋ = ⌊y⌋ := le_antisymm (Int.floor_le_floor hxy) hf
    unfold roundHalfEven
    rw [hfe]
    have hfr : x - (⌊y⌋ : ℚ) ≤ y - (⌊y⌋ : ℚ) := by linarith
    split_ifs <;> first | omega | linarith

lemma pyRound2_mono {x y : ℚ} (hxy : x ≤ y) : pyRound2 x ≤ pyRound2 y := by
  unfold pyRound2
  have h : roundHalfEven (100 * x) ≤ roundHalfEven (100 * y) :=
    roundHalfEven_mono (by linarith)
  have h' : ((roundHalfEven (100 * x) : ℤ) : ℚ)
      ≤ ((roundHalfEven (100 * y) : ℤ) : ℚ) := by exact_mod_cast h
  linarith

/-! ## Claim C3 — the search gate -/

/-- C3 (amended). `should_use_search` returns true iff the results are
empty or the unclamped quantity `1 - d/2` of the top result is strictly
below the threshold; for thresholds in `(0, 1]` this coincides with the
clamped Confidence Scorer score being strictly below the threshold, which
is the statement proved here. The concrete cases of the claim (distance
0.4, confidence 0.8, thresholds 0.7 and 0.85) are included. -/
theorem gate_rule (results : List KBResult) (t : ℚ) (h0 : 0 < t)
    (h1 : t ≤ 1) :
    (shouldUseSearch results t = true ↔
      results = [] ∨
        ∃ r rs, results = r :: rs ∧
          specConfidenceScore (r.distance.getD 1) < t) ∧
    shouldUseSearch [kbWithDistance (2/5)] (7/10) = false ∧
    shouldUseSearch [kbWithDistance (2/5)] (17/20) = true := by
  refine ⟨?_, by norm_num [shouldUseSearch, kbWithDistance],
    by norm_num [shouldUseSearch, kbWithDistance]⟩
  cases results with
  | nil => simp [shouldUseSearch]
  | cons r rs =>
    simp only [shouldUseSearch, decide_eq_true_eq, List.cons.injEq,
      reduceCtorEq, false_or]
    constructor
    · intro h
      refine ⟨r, rs, ⟨rfl, rfl⟩, ?_⟩
      exact max_lt h0 (lt_of_le_of_lt (min_le_right _ _) h)
    · rintro ⟨r', rs', ⟨hr, hrs⟩, h⟩
      subst hr
      by_contra hc
      push_neg at hc
      exact absurd h (not_lt.mpr (le_max_of_le_right (le_min h1 hc)))

/-- C3, counterexample to the claim as stated: with a single result at
distance 3 and threshold 0, the code returns true (its unclamped
confidence `-1/2` is below 0) while the claim's predicate — results empty,
or the clamped Confidence Scorer score strictly below the threshold — is
false, since `clamp(1 - 3/2, 0, 1) = 0` is not below 0. -/
theorem gate_rule_cex :
    shouldUseSearch [kbWithDistance 3] 0 = true ∧
    ¬ (([kbWithDistance 3] : List KBResult) = [] ∨
        specConfidenceScore ((kbWithDistance 3).distance.getD 1) < 0) := by
  constructor
  · norm_num [shouldUseSearch, kbWithDistance]
  · rintro (h | h)
    · simp at h
    · norm_num [specConfidenceScore, kbWithDistance] at h

/-- C3, witness: the gate rule applied at one result of distance 2/5 and
threshold 1. -/
theorem gate_rule_witness :
    shouldUseSearch [kbWithDistance (2/5)] (7/10) = false :=
  (gate_rule [kbWithDistance (2/5)] 1 zero_lt_one (le_refl 1)).2.1

/-! ## Claim C4 — response confidence -/

/-- C4. `_calculate_confidence` on a non-empty result list whose top
distance is `d` equals `round(clamp(1 - d/2, 0, 1), 2)`; it is
non-increasing in the distance; it maps distances 0, 2, 3 to 1, 0, 0; and
every value it returns is an integer multiple of 1/100 (rounded to two
decimal places). -/
theorem confidence_formula :
    (∀ (d : ℚ) (r : KBResult) (rs : List KBResult), r.distance = some d →
      calculateConfidence (r :: rs) = pyRound2 (specConfidenceScore d)) ∧
    (∀ d e : ℚ, d ≤ e →
      calculateConfidence [kbWithDistance e]
        ≤ calculateConfidence [kbWithDistance d]) ∧
    calculateConfidence [kbWithDistance 0] = 1 ∧
    calculateConfidence [kbWithDistance 2] = 0 ∧
    calculateConfidence [kbWithDistance 3] = 0 ∧
    (∀ results, ∃ k : ℤ, calculateConfidence results = (k : ℚ) / 100) := by
  refine ⟨?_, ?_, ?_, ?_, ?_, ?_⟩
  · intro d r rs h
    simp [calculateConfidence, h, specConfidenceScore]
  · intro d e hde
    simp only [calculateConfidence, kbWithDistance, Option.getD_some]
    exact pyRound2_mono (max_le_max (le_refl 0)
      (min_le_min (le_refl 1) (by linarith)))
  · norm_num [calculateConfidence, kbWithDistance, pyRound2, roundHalfEven]
  · norm_num [calculateConfidence, kbWithDistance, pyRound2, roundHalfEven]
  · norm_num [calculateConfidence, kbWithDistance, pyRound2, roundHalfEven]
  · intro results
    cases results with
    | nil => exact ⟨0, by norm_num [calculateConfidence]⟩
    | cons r rs =>
      exact ⟨roundHalfEven (100 * (max 0 (min 1 (1 - r.distance.getD 2 / 2)))),
        rfl⟩

/-- C4, witness: the monotonicity part applied at distances 0 ≤ 1, and the
formula part at an explicit result of distance 1. -/
theorem confidence_formula_witness :
    calculateConfidence [kbWithDistance 1] ≤ calculateConfidence [kbWithDistance 0] ∧
    calculateConfidence (kbWithDistance 1 :: []) = pyRound2 (specConfidenceScore 1) :=
  ⟨confidence_formula.2.1 0 1 zero_le_one,
    confidence_formula.1 1 (kbWithDistance 1) [] rfl⟩

/-! ## Claim C5 — source list composition -/

/-- C5. The formatted source list is the first `min 3 |kb|` knowledge-base
passages, in retrieval order, as `knowledge_base` sources with relevance
`round(1 - distance/2, 2)`, followed by the first `min 3 |web|` web results,
in input order, as `web_search` sources carrying the provider score
verbatim; its length is exactly `min 3 |kb| + min 3 |web|` and never
exceeds 6. -/
theorem sources_cap_and_order (kb : List KBResult) (web : List SearchResult) :
    (formatSources kb web).length = min 3 kb.length + min 3 web.length ∧
    (formatSources kb web).length ≤ 6 ∧
    (∀ i (hk : i < kb.length), i < min 3 kb.length →
      ∀ hf : i < (formatSources kb web).length,
      (formatSources kb web).get ⟨i, hf⟩ =
        Source.knowledgeBase ((kb.get ⟨i, hk⟩).filename.getD "Unknown")
          (kb.get ⟨i, hk⟩).pageNumber (kb.get ⟨i, hk⟩).chunkNumber
          (pyRound2 (1 - (kb.get ⟨i, hk⟩).distance.getD 1 / 2))) ∧
    (∀ j (hw : j < web.length), j < min 3 web.length →
      ∀ hf : min 3 kb.length + j < (formatSources kb web).length,
      (formatSources kb web).get ⟨min 3 kb.length + j, hf⟩ =
        Source.webSearch (web.get ⟨j, hw⟩).title (web.get ⟨j, hw⟩).url
          (web.get ⟨j, hw⟩).score) := by
  have hlen : (formatSources kb web).length
      = min 3 kb.length + min 3 web.length := by
    simp [formatSources]
  refine ⟨hlen, by omega, ?_, ?_⟩
  · intro i hk hi hf
    have h1 : i < ((kb.take 3).map kbSource).length := by
      simpa using hi
    rw [List.get_eq_getElem]
    show ((kb.take 3).map kbSource ++ (web.take 3).map webSource)[i] = _
    rw [List.getElem_append_left h1, List.getElem_map, List.getElem_take]
    rfl
  · intro j hw hj hf
    have h1 : ((kb.take 3).map kbSource).length = min 3 kb.length := by
      simp
    have h2 : ((kb.take 3).map kbSource).length ≤ min 3 kb.length + j := by
      omega
    have h3 : j < ((web.take 3).map webSource).length := by
      simpa using hj
    apply Option.some.inj
    rw [List.get_eq_getElem, ← List.getElem?_eq_getElem]
    show ((kb.take 3).map kbSource ++ (web.take 3).map webSource)[_]? = _
    rw [List.getElem?_append_right h2, h1, Nat.add_sub_cancel_left,
      List.getElem?_eq_getElem h3, List.getElem_map, List.getElem_take]
    rfl

/-- C5, witness: the knowledge-base part of the composition theorem applied
at index 0 of a singleton retrieval list. -/
theorem sources_cap_and_order_witness :
    (formatSources [kbWithDistance 1] []).get
        ⟨0, by simp [formatSources]⟩ =
      Source.knowledgeBase "Unknown" none none (pyRound2 (1 - 1 / 2)) := by
  have h := (sources_cap_and_order [kbWithDistance 1] []).2.2.1 0
    (by simp) (by simp) (by simp [formatSources])
  simpa [kbWithDistance] using h

/-! ## Claim C6 — web-search failure absorption -/

/-- C6. A failing or empty web search never reaches the caller: the
response is still produced, `used_web_search` is false and no `web_search`
source appears; and `used_web_search` is true exactly when search was
enabled, the gate fired, and the (never-raising) search call returned at
least one result. -/
theorem search_failure_absorbed (gen : List Message → String)
    (kb : List KBResult) (q : String) (us : Bool) (t : ℚ) :
    (∀ msg, (ragQuery gen kb (.failure msg) q us t).usedWebSearch = false) ∧
    (∀ msg s, s ∈ (ragQuery gen kb (.failure msg) q us t).sources →
      s.isWeb = false) ∧
    (ragQuery gen kb (.success []) q us t).usedWebSearch = false ∧
    (∀ s, s ∈ (ragQuery gen kb (.success []) q us t).sources →
      s.isWeb = false) ∧
    (∀ outcome, (ragQuery gen kb outcome q us t).usedWebSearch = true ↔
      (us = true ∧ shouldUseSearch kb t = true ∧
        webSearchCall outcome ≠ [])) := by
  have hfail : ∀ msg, searchStep kb (.failure msg) us t = (false, none, []) := by
    intro msg
    unfold searchStep webSearchCall
    split <;> rfl
  have hnil : searchStep kb (.success []) us t = (false, none, []) := by
    unfold searchStep webSearchCall
    split <;> rfl
  have hmem : ∀ s, s ∈ formatSources kb [] → s.isWeb = false := by
    intro s hs
    simp only [formatSources, List.take_nil, List.map_nil,
      List.append_nil] at hs
    obtain ⟨r, -, rfl⟩ := List.mem_map.mp hs
    rfl
  refine ⟨?_, ?_, ?_, ?_, ?_⟩
  · intro msg
    show (searchStep kb (.failure msg) us t).1 = false
    rw [hfail]
  · intro msg s hs
    apply hmem
    have : (ragQuery gen kb (.failure msg) q us t).sources
        = formatSources kb (searchStep kb (.failure msg) us t).2.2 := rfl
    rw [this, hfail] at hs
    exact hs
  · show (searchStep kb (.success []) us t).1 = false
    rw [hnil]
  · intro s hs
    apply hmem
    have : (ragQuery gen kb (.success []) q us t).sources
        = formatSources kb (searchStep kb (.success []) us t).2.2 := rfl
    rw [this, hnil] at hs
    exact hs
  · intro outcome
    show (searchStep kb outcome us t).1 = true ↔ _
    unfold searchStep
    split
    next h =>
      rw [Bool.and_eq_true] at h
      split
      next h2 =>
        rw [List.isEmpty_iff] at h2
        simp [h.1, h.2, h2]
      next h2 =>
        rw [List.isEmpty_iff] at h2
        simp [h.1, h.2, h2]
    next h =>
      rw [Bool.and_eq_true] at h
      constructor
      · intro hc
        simp at hc
      · rintro ⟨hus, hgate, -⟩
        exact (h ⟨hus, hgate⟩).elim

/-- C6, witness: the failure-absorption theorem applied at a concrete
request whose search provider raises. -/
theorem search_failure_absorbed_witness :
    (ragQuery (fun _ => "answer") [] (.failure "timeout") "q" true 1).usedWebSearch
      = false :=
  (search_failure_absorbed (fun _ => "answer") [] "q" true 1).1 "timeout"

/-! ## Claim C9 — streaming and non-streaming share prompt construction -/

/-- C9. For identical collaborator results, the streaming path builds
exactly the prompt messages of the non-streaming path, and the
non-streaming answer is the generation collaborator applied to those same
messages — the paths differ only in how the generation result is consumed. -/
theorem stream_prompt_shared (kb : List KBResult) (outcome : SearchOutcome)
    (q : String) (us : Bool) (t : ℚ) :
    queryStreamPrompt kb outcome q us t = queryPrompt kb outcome q us t ∧
    ∀ gen, (ragQuery gen kb outcome q us t).answer
      = gen (queryPrompt kb outcome q us t) := by
  constructor
  · show createPrompt q kb
        (if us && shouldUseSearch kb t then
          if (webSearchCall outcome).isEmpty then none
          else some (formatSearchResultsForContext (webSearchCall outcome))
        else none)
      = createPrompt q kb (searchStep kb outcome us t).2.1
    unfold searchStep
    split
    · split <;> rfl
    · rfl
  · intro gen
    rfl

/-! ## Chunker lemmas -/

lemma neg_one_le_rfind (l : List Char) (c : Char) : -1 ≤ rfind l c := by
  induction l with
  | nil => simp [rfind]
  | cons x xs ih =>
    simp only [rfind]
    split_ifs <;> omega

lemma rfind_lt_length (l : List Char) (c : Char) :
    rfind l c < (l.length : Int) := by
  induction l with
  | nil => simp [rfind]
  | cons x xs ih =>
    simp only [rfind, List.length_cons]
    push_cast
    split_ifs <;> omega

lemma pySlice_full (l : List Char) (b : Int) (hb : (l.length : Int) ≤ b) :
    pySlice l 0 b = l := by
  unfold pySlice pyIndex
  rw [if_neg (by omega : ¬ b < 0), if_neg (by omega : ¬ (0 : Int) < 0)]
  have h1 : min b.toNat l.length = l.length := by omega
  have h2 : min (0 : Int).toNat l.length = 0 := by simp
  rw [h1, h2, List.take_length, List.drop_zero]

lemma pySlice_length (l : List Char) (a b : Int) (ha : 0 ≤ a)
    (hb : b ≤ (l.length : Int)) (hab : a ≤ b) :
    ((pySlice l a b).length : Int) = b - a := by
  unfold pySlice pyIndex
  rw [if_neg (by omega : ¬ b < 0), if_neg (by omega : ¬ a < 0)]
  simp only [List.length_drop, List.length_take]
  omega

lemma pySlice_pySlice (l : List Char) (s e k : Int) (hs : 0 ≤ s)
    (he : e ≤ (l.length : Int)) (hk : 0 ≤ k) (hke : s + k ≤ e) :
    pySlice (pySlice l s e) 0 k = pySlice l s (s + k) := by
  unfold pySlice pyIndex
  rw [if_neg (by omega : ¬ k < 0), if_neg (by omega : ¬ (0 : Int) < 0),
    if_neg (by omega : ¬ e < 0), if_neg (by omega : ¬ s < 0),
    if_neg (by omega : ¬ s + k < 0)]
  simp only [List.length_drop, List.length_take, Int.toNat_zero,
    Nat.zero_min, List.drop_zero]
  rw [List.take_drop, List.take_take]
  congr 2
  omega

lemma chunkStep_startChar (cfg : ChunkCfg) (fn : String) (text : List Char)
    (start : Int) (num : Nat) :
    (chunkStep cfg fn text start num).1.startChar = start := rfl

lemma chunkStep_snd (cfg : ChunkCfg) (fn : String) (text : List Char)
    (start : Int) (num : Nat) :
    (chunkStep cfg fn text start num).2
      = (chunkStep cfg fn text start num).1.endChar - cfg.chunkOverlap := rfl

/-- Case analysis on one loop iteration: either the chunk keeps the raw
window end `start + chunkSize`, or the window is interior, the break point
passed the midpoint test, and the chunk ends right after it. -/
lemma chunkStep_end_spec (cfg : ChunkCfg) (fn : String) (text : List Char)
    (start : Int) (num : Nat) :
    (chunkStep cfg fn text start num).1.endChar = start + cfg.chunkSize ∨
    (start + (cfg.chunkSize : Int) < text.length ∧
      2 * max (rfind (pySlice text start (start + cfg.chunkSize)) '.')
          (rfind (pySlice text start (start + cfg.chunkSize)) '\n')
        > (cfg.chunkSize : Int) ∧
      (chunkStep cfg fn text start num).1.endChar
        = start + max (rfind (pySlice text start (start + cfg.chunkSize)) '.')
            (rfind (pySlice text start (start + cfg.chunkSize)) '\n') + 1) := by
  simp only [chunkStep]
  split_ifs with h1 h2
  · exact Or.inr ⟨h1, h2, rfl⟩
  · exact Or.inl rfl
  · exact Or.inl rfl

lemma chunkStep_progress (cfg : ChunkCfg) (fn : String) (text : List Char)
    (start : Int) (num : Nat) (hov : cfg.chunkOverlap < cfg.chunkSize)
    (hov2 : cfg.chunkOverlap ≤ cfg.chunkSize / 2 + 1) :
    start + 1 ≤ (chunkStep cfg fn text start num).2 := by
  rw [chunkStep_snd]
  rcases chunkStep_end_spec cfg fn text start num with h | ⟨-, hbp, h⟩ <;>
    rw [h]
  · omega
  · generalize max (rfind (pySlice text start (start + cfg.chunkSize)) '.')
      (rfind (pySlice text start (start + cfg.chunkSize)) '\n') = m at hbp ⊢
    omega

lemma chunkStep_end_gt (cfg : ChunkCfg) (fn : String) (text : List Char)
    (start : Int) (num : Nat) (hcs : 0 < cfg.chunkSize) :
    start < (chunkStep cfg fn text start num).1.endChar := by
  rcases chunkStep_end_spec cfg fn text start num with h | ⟨-, hbp, h⟩ <;>
    rw [h]
  · omega
  · generalize max (rfind (pySlice text start (start + cfg.chunkSize)) '.')
      (rfind (pySlice text start (start + cfg.chunkSize)) '\n') = m at hbp ⊢
    omega

/-- The emitted chunk's content is the stripped slice of the original text
between its recorded offsets. -/
lemma chunkStep_content (cfg : ChunkCfg) (fn : String) (text : List Char)
    (start : Int) (num : Nat) (h0 : 0 ≤ start) :
    (chunkStep cfg fn text start num).1.content
      = pyStrip (pySlice text start
          (chunkStep cfg fn text start num).1.endChar) := by
  simp only [chunkStep]
  split_ifs with h1 h2
  · have hw := pySlice_length text start (start + cfg.chunkSize) h0
      (by omega) (by omega)
    have hr1 := rfind_lt_length (pySlice text start (start + cfg.chunkSize)) '.'
    have hr2 := rfind_lt_length (pySlice text start (start + cfg.chunkSize)) '\n'
    congr 1
    rw [add_assoc]
    exact pySlice_pySlice text start (start + cfg.chunkSize) _ h0 (by omega)
      (by omega) (by omega)
  · rfl
  · rfl

/-! ## Loop invariants of `chunk_text` -/

lemma chunkLoop_isSome (cfg : ChunkCfg) (fn : String) (text : List Char)
    (hov : cfg.chunkOverlap < cfg.chunkSize)
    (hov2 : cfg.chunkOverlap ≤ cfg.chunkSize / 2 + 1) :
    ∀ (fuel : Nat) (start : Int) (num : Nat),
      (text.length : Int) ≤ start + fuel →
      (chunkLoop cfg fn text fuel start num).isSome = true := by
  intro fuel
  induction fuel with
  | zero =>
    intro start num h
    simp only [chunkLoop]
    rw [if_neg (by omega)]
    rfl
  | succ fuel ih =>
    intro start num h
    simp only [chunkLoop]
    split
    next hlt =>
      rw [Option.isSome_map']
      exact ih (chunkStep cfg fn text start num).2 (num + 1)
        (by have := chunkStep_progress cfg fn text start num hov hov2; push_cast at h ⊢; omega)
    next hlt => rfl

lemma chunkLoop_ne_nil (cfg : ChunkCfg) (fn : String) (text : List Char)
    (fuel : Nat) (start : Int) (num : Nat) (res : List DocumentChunk)
    (h : chunkLoop cfg fn text fuel start num = some res)
    (hlt : start < (text.length : Int)) : res ≠ [] := by
  cases fuel with
  | zero =>
    simp only [chunkLoop] at h
    rw [if_pos hlt] at h
    exact absurd h (by simp)
  | succ fuel =>
    simp only [chunkLoop] at h
    rw [if_pos hlt] at h
    obtain ⟨rest, -, rfl⟩ := Option.map_eq_some'.mp h
    simp

lemma chunkLoop_chain (cfg : ChunkCfg) (fn : String) (text : List Char) :
    ∀ (fuel : Nat) (start : Int) (num : Nat) (res : List DocumentChunk),
      chunkLoop cfg fn text fuel start num = some res →
      ChunkChain cfg start res := by
  intro fuel
  induction fuel with
  | zero =>
    intro start num res h
    simp only [chunkLoop] at h
    split at h
    · exact absurd h (by simp)
    · cases h
      trivial
  | succ fuel ih =>
    intro start num res h
    simp only [chunkLoop] at h
    split at h
    · obtain ⟨rest, hrest, rfl⟩ := Option.map_eq_some'.mp h
      refine ⟨chunkStep_startChar cfg fn text start num, ?_⟩
      have := ih (chunkStep cfg fn text start num).2 (num + 1) rest hrest
      rwa [chunkStep_snd] at this
    · cases h
      trivial

lemma chunkLoop_end_gt (cfg : ChunkCfg) (fn : String) (text : List Char)
    (hcs : 0 < cfg.chunkSize) :
    ∀ (fuel : Nat) (start : Int) (num : Nat) (res : List DocumentChunk),
      chunkLoop cfg fn text fuel start num = some res →
      ∀ c ∈ res, c.startChar < c.endChar := by
  intro fuel
  induction fuel with
  | zero =>
    intro start num res h
    simp only [chunkLoop] at h
    split at h
    · exact absurd h (by simp)
    · cases h
      simp
  | succ fuel ih =>
    intro start num res h
    simp only [chunkLoop] at h
    split at h
    · obtain ⟨rest, hrest, rfl⟩ := Option.map_eq_some'.mp h
      intro c hc
      rcases List.mem_cons.mp hc with rfl | hmem
      · rw [chunkStep_startChar]
        exact chunkStep_end_gt cfg fn text start num hcs
      · exact ih _ (num + 1) rest hrest c hmem
    · cases h
      simp

lemma chunkLoop_coverage (cfg : ChunkCfg) (fn : String) (text : List Char) :
    ∀ (fuel : Nat) (start : Int) (num : Nat) (res : List DocumentChunk),
      chunkLoop cfg fn text fuel start num = some res →
      ∀ p : Int, start ≤ p → p < (text.length : Int) →
        ∃ c ∈ res, c.startChar ≤ p ∧ p < c.endChar := by
  intro fuel
  induction fuel with
  | zero =>
    intro start num res h p hsp hp
    simp only [chunkLoop] at h
    rw [if_pos (by omega)] at h
    exact absurd h (by simp)
  | succ fuel ih =>
    intro start num res h p hsp hp
    simp only [chunkLoop] at h
    rw [if_pos (by omega)] at h
    obtain ⟨rest, hrest, rfl⟩ := Option.map_eq_some'.mp h
    by_cases hcov : p < (chunkStep cfg fn text start num).1.endChar
    · exact ⟨(chunkStep cfg fn text start num).1, List.mem_cons_self _ _,
        by rw [chunkStep_startChar]; exact hsp, hcov⟩
    · have hnext : (chunkStep cfg fn text start num).2 ≤ p := by
        rw [chunkStep_snd]
        omega
      obtain ⟨c, hc, hcp⟩ := ih _ (num + 1) rest hrest p hnext hp
      exact ⟨c, List.mem_cons_of_mem _ hc, hcp⟩

lemma chunkLoop_sorted (cfg : ChunkCfg) (fn : String) (text : List Char)
    (hov : cfg.chunkOverlap < cfg.chunkSize)
    (hov2 : cfg.chunkOverlap ≤ cfg.chunkSize / 2 + 1) :
    ∀ (fuel : Nat) (start : Int) (num : Nat) (res : List DocumentChunk),
      chunkLoop cfg fn text fuel start num = some res →
      List.Chain' (fun a b => a.startChar < b.startChar) res := by
  intro fuel
  induction fuel with
  | zero =>
    intro start num res h
    simp only [chunkLoop] at h
    split at h
    · exact absurd h (by simp)
    · cases h
      simp
  | succ fuel ih =>
    intro start num res h
    simp only [chunkLoop] at h
    split at h
    · obtain ⟨rest, hrest, rfl⟩ := Option.map_eq_some'.mp h
      rw [List.chain'_cons']
      refine ⟨?_, ih _ (num + 1) rest hrest⟩
      intro d hd
      have hchain := chunkLoop_chain cfg fn text fuel _ (num + 1) rest hrest
      have hprog := chunkStep_progress cfg fn text start num hov hov2
      cases rest with
      | nil => simp at hd
      | cons d' rest' =>
        obtain rfl : d' = d := by simpa using hd
        rw [chunkStep_startChar, hchain.1, chunkStep_snd]
        rw [chunkStep_snd] at hprog
        omega
    · cases h
      simp

lemma chunkLoop_content (cfg : ChunkCfg) (fn : String) (text : List Char)
    (hov : cfg.chunkOverlap < cfg.chunkSize)
    (hov2 : cfg.chunkOverlap ≤ cfg.chunkSize / 2 + 1) :
    ∀ (fuel : Nat) (start : Int) (num : Nat) (res : List DocumentChunk),
      0 ≤ start →
      chunkLoop cfg fn text fuel start num = some res →
      ∀ c ∈ res, c.content = pyStrip (pySlice text c.startChar c.endChar) ∧
        (c.endChar = c.startChar + cfg.chunkSize ∨
          c.endChar < (text.length : Int)) := by
  intro fuel
  induction fuel with
  | zero =>
    intro start num res h0 h
    simp only [chunkLoop] at h
    split at h
    · exact absurd h (by simp)
    · cases h
      simp
  | succ fuel ih =>
    intro start num res h0 h
    simp only [chunkLoop] at h
    split at h
    · obtain ⟨rest, hrest, rfl⟩ := Option.map_eq_some'.mp h
      intro c hc
      rcases List.mem_cons.mp hc with rfl | hmem
      · constructor
        · rw [chunkStep_startChar]
          exact chunkStep_content cfg fn text start num h0
        · rw [chunkStep_startChar]
          rcases chunkStep_end_spec cfg fn text start num with he | ⟨hin, hbp, he⟩
          · exact Or.inl he
          · refine Or.inr ?_
            rw [he]
            have hw := pySlice_length text start (start + cfg.chunkSize) h0
              (by omega) (by omega)
            have hr1 := rfind_lt_length
              (pySlice text start (start + cfg.chunkSize)) '.'
            have hr2 := rfind_lt_length
              (pySlice text start (start + cfg.chunkSize)) '\n'
            omega
      · have hprog := chunkStep_progress cfg fn text start num hov hov2
        exact ih _ (num + 1) rest (by omega) hrest c hmem
    · cases h
      simp

lemma chunkLoop_succ (cfg : ChunkCfg) (fn : String) (text : List Char)
    (fuel : Nat) (start : Int) (num : Nat) :
    chunkLoop cfg fn text (fuel + 1) start num
      = if start < (text.length : Int) then
          (chunkLoop cfg fn text fuel
              (chunkStep cfg fn text start num).2 (num + 1)).map
            ((chunkStep cfg fn text start num).1 :: ·)
        else some [] := rfl

/-! ## Claim C8 — termination of `chunk_text` -/

/-- C8 (amended). Under the strengthened configuration precondition
`chunkOverlap < chunkSize` and `chunkOverlap ≤ chunkSize / 2 + 1`
(satisfied by the shipped configuration 1000/200), every loop iteration
advances `start` by at least one character, so `chunk_text` terminates on
every input once given fuel `text.length`, and being a total function it
cannot fail. -/
theorem chunk_text_terminates (cfg : ChunkCfg) (fn : String)
    (text : List Char) (fuel : Nat)
    (hov : cfg.chunkOverlap < cfg.chunkSize)
    (hov2 : cfg.chunkOverlap ≤ cfg.chunkSize / 2 + 1)
    (hfuel : text.length ≤ fuel) :
    (chunkText cfg fn text fuel).isSome = true :=
  chunkLoop_isSome cfg fn text hov hov2 fuel 0 0 (by omega)

/-- C8, witness: termination at the shipped configuration. -/
theorem chunk_text_terminates_witness :
    (chunkText ⟨1000, 200⟩ "f" (String.data "hello") 5).isSome = true :=
  chunk_text_terminates ⟨1000, 200⟩ "f" (String.data "hello") 5
    (by decide) (by decide) (by decide)

/-- On an 18-character text whose first window has its last sentence
boundary at index 7, the configuration `chunkSize = 10, chunkOverlap = 8`
cuts at the boundary (`end = 8`) and re-enters the loop at
`start = 8 - 8 = 0` forever: the fuelled loop returns `none` for every
amount of fuel. -/
lemma chunkLoop_stuck :
    ∀ (fuel num : Nat),
      chunkLoop ⟨10, 8⟩ "f" (String.data "aaaaaaa.aaaaaaaaaa") fuel 0 num
        = none := by
  intro fuel
  induction fuel with
  | zero =>
    intro num
    rfl
  | succ fuel ih =>
    intro num
    have hstep : (chunkStep ⟨10, 8⟩ "f"
        (String.data "aaaaaaa.aaaaaaaaaa") 0 num).2 = 0 := rfl
    rw [chunkLoop_succ, if_pos (by decide), hstep, ih (num + 1)]
    rfl

/-- C8, counterexample to the claim as stated: the configuration
`chunkSize = 10, chunkOverlap = 8` satisfies the claimed precondition
`0 < chunkOverlap < chunkSize`, yet on the text `"aaaaaaa.aaaaaaaaaa"` the
sliding-window loop makes no forward progress (the next `start` equals the
current `start = 0`) and `chunk_text` does not terminate — the fuelled
embedding still returns `none` after 100 iterations. -/
theorem chunk_text_nontermination_cex :
    ((0 : Nat) < 8 ∧ (8 : Nat) < 10) ∧
    chunkText ⟨10, 8⟩ "f" (String.data "aaaaaaa.aaaaaaaaaa") 100 = none ∧
    (chunkStep ⟨10, 8⟩ "f" (String.data "aaaaaaa.aaaaaaaaaa") 0 0).2 = 0 :=
  ⟨⟨by omega, by omega⟩, chunkLoop_stuck 100 0, rfl⟩

/-! ## Claim C7 — chunk range invariants -/

/-- C7 (amended). Under the strengthened configuration precondition (which
the shipped 1000/200 configuration satisfies), the chunks of a non-empty
text are non-empty as a list; every chunk has `end_char > start_char`; the
first chunk starts at 0 and each next chunk starts exactly
`chunkOverlap` before the previous chunk's end (`ChunkChain`, the fixed
overlap); the start offsets are strictly increasing; and every position of
`[0, len)` is covered by some chunk's `[start_char, end_char)` — no gaps. -/
theorem chunk_invariants (cfg : ChunkCfg) (fn : String) (text : List Char)
    (fuel : Nat) (res : List DocumentChunk)
    (hov : cfg.chunkOverlap < cfg.chunkSize)
    (hov2 : cfg.chunkOverlap ≤ cfg.chunkSize / 2 + 1)
    (hne : text ≠ [])
    (hres : chunkText cfg fn text fuel = some res) :
    res ≠ [] ∧
    (∀ c ∈ res, c.startChar < c.endChar) ∧
    ChunkChain cfg 0 res ∧
    List.Chain' (fun a b => a.startChar < b.startChar) res ∧
    (∀ p : Int, 0 ≤ p → p < (text.length : Int) →
      ∃ c ∈ res, c.startChar ≤ p ∧ p < c.endChar) := by
  have hlen : 0 < text.length := List.length_pos.mpr hne
  exact ⟨chunkLoop_ne_nil cfg fn text fuel 0 0 res hres (by omega),
    chunkLoop_end_gt cfg fn text (by omega) fuel 0 0 res hres,
    chunkLoop_chain cfg fn text fuel 0 0 res hres,
    chunkLoop_sorted cfg fn text hov hov2 fuel 0 0 res hres,
    fun p h0 hp => chunkLoop_coverage cfg fn text fuel 0 0 res hres p h0 hp⟩

/-- C7, counterexample to the claim as stated: with
`chunkSize = 10, chunkOverlap = 8` (allowed by the spec's stated
precondition `0 < chunkOverlap < chunkSize`) and the 12-character text
`"aaaaaa.aaaaa"`, `chunk_text` terminates but produces chunks whose start
offsets `[0, -1, 1, 3, 5, 7, 9, 11]` are not ordered (the second start is
negative and smaller than the first). -/
theorem chunk_order_cex :
    ((0 : Nat) < 8 ∧ (8 : Nat) < 10) ∧
    (chunkText ⟨10, 8⟩ "f" (String.data "aaaaaa.aaaaa") 12).map
        (List.map DocumentChunk.startChar)
      = some [0, -1, 1, 3, 5, 7, 9, 11] ∧
    ¬ List.Chain' (fun a b : Int => a ≤ b) [0, -1, 1, 3, 5, 7, 9, 11] := by
  refine ⟨⟨by omega, by omega⟩, by decide, fun h => ?_⟩
  rw [List.chain'_cons] at h
  exact absurd h.1 (by decide)

/-- C7, witness: the invariants applied to the two chunks of a 9-character
text at configuration 10/2. -/
theorem chunk_invariants_witness :
    ([⟨String.data "aaaaaaaaa", 0, 0, 10, "f_0"⟩,
      ⟨String.data "a", 1, 8, 18, "f_1"⟩] : List DocumentChunk) ≠ [] :=
  (chunk_invariants ⟨10, 2⟩ "f" (String.data "aaaaaaaaa") 20 _
    (by decide) (by decide) (by decide) (by decide)).1

/-! ## Claim C1 — short and empty texts -/

/-- C1 (amended). A text whose length is positive and at most
`chunkSize - chunkOverlap` yields exactly one chunk spanning the whole
text (offsets `[0, chunkSize)`, content the stripped full text); an empty
text yields the empty sequence. -/
theorem chunk_short_text (cfg : ChunkCfg) (fn : String) (text : List Char)
    (fuel : Nat) (hlen : 0 < text.length)
    (hshort : (text.length : Int) ≤ (cfg.chunkSize : Int) - cfg.chunkOverlap)
    (hfuel : 2 ≤ fuel) :
    chunkText cfg fn text fuel
      = some [⟨pyStrip text, 0, 0, (cfg.chunkSize : Int),
          fn ++ "_" ++ toString 0⟩] ∧
    ∀ fuel' : Nat, chunkText cfg fn [] fuel' = some [] := by
  constructor
  · obtain ⟨f, rfl⟩ : ∃ f, fuel = f + 2 := ⟨fuel - 2, by omega⟩
    have hstep : chunkStep cfg fn text 0 0
        = (⟨pyStrip text, 0, 0, (cfg.chunkSize : Int),
            fn ++ "_" ++ toString 0⟩,
           (cfg.chunkSize : Int) - cfg.chunkOverlap) := by
      simp only [chunkStep]
      rw [if_neg (by omega : ¬ (0 : Int) + cfg.chunkSize < text.length)]
      rw [pySlice_full text _ (by omega)]
      norm_num
    have htail : chunkLoop cfg fn text (f + 1)
        ((cfg.chunkSize : Int) - cfg.chunkOverlap) 1 = some [] := by
      rw [chunkLoop_succ, if_neg (by omega)]
    show chunkLoop cfg fn text (f + 1 + 1) 0 0 = _
    rw [chunkLoop_succ, if_pos (by omega), hstep]
    dsimp only
    rw [htail]
    rfl
  · intro fuel'
    cases fuel' with
    | zero => rw [show chunkText cfg fn [] 0 = chunkLoop cfg fn [] 0 0 0 from rfl]
              simp [chunkLoop]
    | succ f => rw [show chunkText cfg fn [] (f + 1)
                      = chunkLoop cfg fn [] (f + 1) 0 0 from rfl,
                  chunkLoop_succ, if_neg (by simp)]

/-- C1, counterexample to the claim as stated: at configuration
`chunkSize = 10, chunkOverlap = 2` (the shipped 1000/200 scaled down), the
9-character text `"aaaaaaaaa"` is strictly shorter than `chunkSize`, yet
`chunk_text` returns two chunks, not one: after the first (whole-text)
chunk, `start` becomes `10 - 2 = 8 < 9` and the loop runs again. -/
theorem chunk_single_cex :
    (0 < (String.data "aaaaaaaaa").length ∧
      (String.data "aaaaaaaaa").length < 10) ∧
    (chunkText ⟨10, 2⟩ "f" (String.data "aaaaaaaaa") 20).map List.length
      = some 2 := by
  exact ⟨by decide, by decide⟩

/-- C1, witness: a 3-character text at the shipped configuration yields
exactly one chunk spanning the whole text. -/
theorem chunk_short_text_witness :
    chunkText ⟨1000, 200⟩ "f" (String.data "hi.") 2
      = some [⟨pyStrip (String.data "hi."), 0, 0, (1000 : Int),
          "f" ++ "_" ++ toString 0⟩] :=
  (chunk_short_text ⟨1000, 200⟩ "f" (String.data "hi.") 2 (by decide)
    (by decide) (by decide)).1

/-! ## Claim C2 — boundary-aware trim -/

/-- C2 (amended). For a window that is not the last
(`start + chunkSize < len`): if the last occurrence of `'.'` or `'\n'` in
the window lies strictly after 50% of the window (`2·index > chunkSize`;
the code compares `index > chunkSize * 0.5` strictly), the chunk ends
exactly at that boundary character inclusive; otherwise — including when
the boundary sits exactly at the 50% mark — the chunk ends at the raw
window edge `start + chunkSize`. -/
theorem chunk_boundary_cut (cfg : ChunkCfg) (fn : String) (text : List Char)
    (start : Int) (num : Nat)
    (hin : start + (cfg.chunkSize : Int) < (text.length : Int)) :
    (2 * max (rfind (pySlice text start (start + cfg.chunkSize)) '.')
        (rfind (pySlice text start (start + cfg.chunkSize)) '\n')
      > (cfg.chunkSize : Int) →
      (chunkStep cfg fn text start num).1.endChar
        = start + max (rfind (pySlice text start (start + cfg.chunkSize)) '.')
            (rfind (pySlice text start (start + cfg.chunkSize)) '\n') + 1) ∧
    (¬ 2 * max (rfind (pySlice text start (start + cfg.chunkSize)) '.')
        (rfind (pySlice text start (start + cfg.chunkSize)) '\n')
      > (cfg.chunkSize : Int) →
      (chunkStep cfg fn text start num).1.endChar
        = start + cfg.chunkSize) := by
  constructor <;> intro h <;> simp only [chunkStep] <;>
    rw [if_pos hin]
  · rw [if_pos h]
  · rw [if_neg h]

/-- C2, counterexample to the claim as stated: in the first window of
`"aaaaa.aaaaXYZW"` at configuration 10/2, the last boundary is the period
at index 5 — exactly at 50% of the 10-character window, so "at or after
50%" — yet the code keeps the raw cut: the first chunk ends at 10, not at
the boundary-inclusive 6. -/
theorem chunk_boundary_cex :
    rfind (pySlice (String.data "aaaaa.aaaaXYZW") 0 (0 + 10)) '.' = 5 ∧
    rfind (pySlice (String.data "aaaaa.aaaaXYZW") 0 (0 + 10)) '\n' = -1 ∧
    2 * (5 : Int) ≥ 10 ∧
    (chunkStep ⟨10, 2⟩ "f" (String.data "aaaaa.aaaaXYZW") 0 0).1.endChar
      = 10 ∧
    (10 : Int) ≠ 0 + 5 + 1 := by
  exact ⟨by decide, by decide, by decide, by decide, by decide⟩

/-- C2, witness: in `"The cat sat. On a mat today friends"` the period at
index 11 lies strictly past the midpoint of the 20-character window, and
the first chunk ends at 12, the boundary inclusive. -/
theorem chunk_boundary_cut_witness :
    (chunkStep ⟨20, 5⟩ "f"
        (String.data "The cat sat. On a mat today friends") 0 0).1.endChar
      = 12 :=
  ((chunk_boundary_cut ⟨20, 5⟩ "f"
      (String.data "The cat sat. On a mat today friends") 0 0
      (by decide)).1 (by decide)).trans (by decide)

/-! ## Claim C10 — chunk content and unclamped end offset -/

/-- C10. Every chunk's content is the stripped slice
`text[start_char:end_char]` (the slice truncating at the end of the text),
and `end_char` is never clamped to the text length: it is either exactly
`start_char + chunkSize` (the raw window edge, possibly past the end of
the text) or a boundary cut, which always lies strictly inside the
text. -/
theorem chunk_content_and_offsets (cfg : ChunkCfg) (fn : String)
    (text : List Char) (fuel : Nat) (res : List DocumentChunk)
    (hov : cfg.chunkOverlap < cfg.chunkSize)
    (hov2 : cfg.chunkOverlap ≤ cfg.chunkSize / 2 + 1)
    (hres : chunkText cfg fn text fuel = some res) :
    ∀ c ∈ res, c.content = pyStrip (pySlice text c.startChar c.endChar) ∧
      (c.endChar = c.startChar + cfg.chunkSize ∨
        c.endChar < (text.length : Int)) :=
  chunkLoop_content cfg fn text hov hov2 fuel 0 0 res le_rfl hres

/-- C10, witness: the single chunk of `"abc"` at configuration 10/2 has
content `strip(text[0:10]) = "abc"` and an end offset 10 that exceeds the
text length 3 — unclamped. -/
theorem chunk_content_and_offsets_witness :
    String.data "abc" = pyStrip (pySlice (String.data "abc") 0 10) ∧
    ((10 : Int) = (0 : Int) + ((10 : Nat) : Int) ∨
      (10 : Int) < ((String.data "abc").length : Int)) :=
  chunk_content_and_offsets ⟨10, 2⟩ "f" (String.data "abc") 2
    [⟨String.data "abc", 0, 0, 10, "f_0"⟩] (by decide) (by decide)
    (by decide) ⟨String.data "abc", 0, 0, 10, "f_0"⟩
    (List.mem_singleton.mpr rfl)

end RagChatbot
